import Mathlib

/-!
Verification of the service_robot DSL core: the command parser
(`src/parser.rs`), the runtime environment (`src/env.rs`) and the
interpreter (`src/interpreter.rs`), shallowly embedded in Lean.
Rust `HashMap`s are modelled as association lists (first-key lookup,
insert-overwrite), terminal I/O as an input stream `Nat → String` with a
cursor plus an accumulated output list, and Rust panics (`unwrap` on
`None`) as a distinguished `crash` outcome separate from the library's
`Error` values.
-/

namespace ServiceRobot

/-- Command kinds, from `src/command.rs` (`enum CommandType`). -/
inductive CommandType where
  | MATCH (s : String)
  | INPUT (s : String)
  | SPEAK (s : String)
  | NEXT (s : String)
  | STAGE (s : String)
  | DEFAULT
deriving DecidableEq, Repr

/-- A command with its source line number, from `src/command.rs` (`struct Command`). -/
structure Command where
  ctype : CommandType
  line : Int
deriving DecidableEq, Repr

/-- A match arm, from `src/parser.rs` (`struct MatchBlock`). -/
structure MatchBlock where
  pattern : String
  next_stage : String
deriving DecidableEq, Repr

/-- An input transition, from `src/parser.rs` (`struct InputBlock`). -/
structure InputBlock where
  input_var : String
  next_stage : String
deriving DecidableEq, Repr

/-- A stage's transition, from `src/parser.rs` (`enum Transition`). -/
inductive Transition where
  | Match (arms : List MatchBlock)
  | Input (ib : InputBlock)
deriving DecidableEq, Repr

/-- A parsed stage, from `src/parser.rs` (`struct StageBlock`). -/
structure StageBlock where
  stage : String
  speak : String
  transition : Transition
deriving DecidableEq, Repr

/-- The parser's control state, from `src/parser.rs` (`enum Status`). -/
inductive Status where
  | Init
  | Stage
  | Speak
  | Match
  | MatchNext
  | Input
  | InputNext
  | Default
deriving DecidableEq, Repr

/-- Parser outcomes: `parse` returns `Error::Parse` on a grammar violation;
`crash` models a Rust panic (`Option::unwrap` on `None`). -/
inductive PErr where
  | parseError
  | crash
deriving DecidableEq, Repr

/-- The stage map `HashMap<String, StageBlock>` modelled as an association
list: `lookupStage` returns the first binding of a key. -/
abbrev Stages := List (String × StageBlock)

/-- `HashMap::get` on the stage map. -/
def lookupStage (m : Stages) (k : String) : Option StageBlock :=
  match m with
  | [] => none
  | (k2, v) :: rest => if k2 == k then some v else lookupStage rest k

/-- `HashMap::insert`: overwrite the binding of `k` if present, else append. -/
def insertStage (m : Stages) (k : String) (v : StageBlock) : Stages :=
  match m with
  | [] => [(k, v)]
  | (k2, v2) :: rest =>
      if k2 == k then (k2, v) :: rest else (k2, v2) :: insertStage rest k v

/-- The mutable locals of `DSLParser::parse` (`src/parser.rs`, lines 125-129),
together with the growing stage map. -/
structure PState where
  stages : Stages
  current_stage : Option String
  current_speak : Option String
  current_transition : Option Transition
  current_pattern : Option String
  status : Status
deriving DecidableEq, Repr

/-- Initial parse state (`src/parser.rs`, lines 125-129 with `DSLParser::new`). -/
def PState.init : PState :=
  { stages := [], current_stage := none, current_speak := none,
    current_transition := none, current_pattern := none, status := .Init }

/-- Flushing the open stage on a new `STAGE` command or at end of stream
(`src/parser.rs`, lines 148-155 and 251-258): inserts only when both a
stage name and a speak line are recorded; `current_transition.unwrap()`
panics when the transition is still `None`. -/
def flushStage (st : PState) : Except PErr Stages :=
  match st.current_stage with
  | none => .ok st.stages
  | some stage =>
      match st.current_speak with
      | none => .ok st.stages
      | some speak =>
          match st.current_transition with
          | none => .error .crash
          | some tr => .ok (insertStage st.stages stage (StageBlock.mk stage speak tr))

/-- The `NEXT` handling for `Status::Match | Status::Default`
(`src/parser.rs`, lines 210-230): append a `MatchBlock` built from the
stashed pattern to the accumulated `Match` arm list (creating the list if
the transition is still `None`; a stashed `Input` transition is left
untouched by the wildcard arm of the Rust `match`), then enter
`MatchNext`. -/
def appendMatchNext (st : PState) (next_stage : String) : PState :=
  match st.current_pattern with
  | none => { st with status := .MatchNext }
  | some pattern =>
      match st.current_transition with
      | some (Transition.Match blocks) =>
          { st with
            current_transition :=
              some (.Match (blocks ++ [MatchBlock.mk pattern next_stage])),
            status := .MatchNext }
      | some (Transition.Input ib) =>
          { st with current_transition := some (.Input ib), status := .MatchNext }
      | none =>
          { st with
            current_transition := some (.Match [MatchBlock.mk pattern next_stage]),
            status := .MatchNext }

/-- The `NEXT` handling for `Status::Input` (`src/parser.rs`, lines
231-239): set the transition to `Input{varName, nextStage}` from the
stashed variable name, then enter `InputNext`. -/
def setInputNext (st : PState) (next_stage : String) : PState :=
  match st.current_pattern with
  | none => { st with status := .InputNext }
  | some pattern =>
      { st with
        current_transition := some (.Input (InputBlock.mk pattern next_stage)),
        status := .InputNext }

/-- One iteration of the command loop of `DSLParser::parse`
(`src/parser.rs`, lines 131-248). -/
def parseStep (st : PState) (c : Command) : Except PErr PState :=
  match c.ctype with
  | .STAGE stage =>
      if st.status == .Init || st.status == .InputNext || st.status == .MatchNext then
        match flushStage st with
        | .error e => .error e
        | .ok stages2 =>
            .ok { stages := stages2, current_stage := some stage,
                  current_speak := none, current_transition := none,
                  current_pattern := st.current_pattern, status := .Stage }
      else .error .parseError
  | .SPEAK speak =>
      if st.status == .Stage then
        .ok { st with status := .Speak, current_speak := some speak }
      else .error .parseError
  | .MATCH pattern =>
      if st.status == .Speak || st.status == .MatchNext then
        .ok { st with status := .Match, current_pattern := some pattern }
      else .error .parseError
  | .DEFAULT =>
      if st.status == .Speak || st.status == .MatchNext then
        .ok { st with status := .Default, current_pattern := some ".*" }
      else .error .parseError
  | .INPUT input_var =>
      if st.status == .Speak then
        .ok { st with status := .Input, current_pattern := some input_var }
      else .error .parseError
  | .NEXT next_stage =>
      match st.status with
      | .Match | .Default => .ok (appendMatchNext st next_stage)
      | .Input => .ok (setInputNext st next_stage)
      | _ => .error .parseError

/-- The command loop of `DSLParser::parse`, with early return on error. -/
def parseLoop (st : PState) : List Command → Except PErr PState
  | [] => .ok st
  | c :: rest =>
      match parseStep st c with
      | .error e => .error e
      | .ok st2 => parseLoop st2 rest

/-- `DSLParser::parse` (`src/parser.rs`, lines 124-261): run the command
loop from the initial state, then flush the last open stage. -/
def parse (commands : List Command) : Except PErr Stages :=
  match parseLoop PState.init commands with
  | .error e => .error e
  | .ok st => flushStage st


/-! ## Values and the runtime environment (`src/env.rs`) -/

/-- An `f64` value as stored by the environment, modelled symbolically:
a finite value carries the exact decimal it was parsed from as a rational
(the source stores the nearest binary `f64`; no claim depends on the
rounding), plus the infinities and NaN that Rust's float grammar admits. -/
inductive F64 where
  | finite (q : ℚ)
  | inf (neg : Bool)
  | nan
deriving DecidableEq, Repr

/-- `enum Value` from `src/env.rs`: number or string (the source names the
second constructor `String`; it is `Str` here to avoid shadowing the Lean
type). -/
inductive Value where
  | Number (v : F64)
  | Str (s : String)
deriving DecidableEq, Repr

/-- Numeric value of a digit list, most significant first. -/
def digitsVal (ds : List Char) : Nat :=
  ds.foldl (fun a c => a * 10 + (c.toNat - '0'.toNat)) 0

/-- The decimal/exponent part of Rust's `f64::from_str` grammar
(`Digits '.'? Digits? Exp?` with at least one digit in the mantissa),
evaluated exactly over the rationals. -/
def parseDecimal (neg : Bool) (cs : List Char) : Option F64 :=
  let (ip, cs1) := cs.span Char.isDigit
  let (fp, cs2) :=
    match cs1 with
    | '.' :: rest => rest.span Char.isDigit
    | _ => ([], cs1)
  if ip.isEmpty && fp.isEmpty && cs1.length == cs.length then none
  else if ip.isEmpty && fp.isEmpty then none
  else
    let mant : ℚ := (digitsVal ip : ℚ) + (digitsVal fp : ℚ) / ((10 : ℚ) ^ fp.length)
    let smant : ℚ := if neg then -mant else mant
    match cs2 with
    | [] => some (.finite smant)
    | e :: rest =>
        if e == 'e' || e == 'E' then
          let (esign, rest2) :=
            match rest with
            | '+' :: r => (false, r)
            | '-' :: r => (true, r)
            | _ => (false, rest)
          let (ed, rest3) := rest2.span Char.isDigit
          if ed.isEmpty || !rest3.isEmpty then none
          else
            let ex : ℤ := if esign then -(digitsVal ed : ℤ) else (digitsVal ed : ℤ)
            some (.finite (smant * (10 : ℚ) ^ ex))
        else none

/-- Rust's `str::parse::<f64>` (`s.parse::<f64>()` in
`GlobalEnvironment::string_convert_to_value`): optional sign, then
`inf`/`infinity`/`nan` case-insensitively, or a decimal number with
optional exponent. Values are kept exact (see `F64`). -/
def parseF64 (s : String) : Option F64 :=
  let cs := s.toList
  let (neg, cs2) :=
    match cs with
    | '+' :: rest => (false, rest)
    | '-' :: rest => (true, rest)
    | _ => (false, cs)
  let low := String.mk (cs2.map Char.toLower)
  if low == "inf" || low == "infinity" then some (.inf neg)
  else if low == "nan" then some .nan
  else parseDecimal neg cs2

/-- Decimal digits of the fractional part `r` (`0 ≤ r < 1`), stopping at
zero remainder or after `fuel` digits. -/
def fracDigits : Nat → ℚ → List Char
  | 0, _ => []
  | fuel + 1, r =>
      if r == 0 then []
      else
        let r10 := r * 10
        let d := (Rat.floor r10).toNat
        Char.ofNat ('0'.toNat + d) :: fracDigits fuel (r10 - (d : ℚ))

/-- `f64::to_string` (used by `Value::stringify`): plain decimal notation,
no exponent, integral values printed without a fractional part,
`inf`/`-inf`/`NaN` for the specials. Exact decimals print their digits. -/
def f64ToString (v : F64) : String :=
  match v with
  | .nan => "NaN"
  | .inf true => "-inf"
  | .inf false => "inf"
  | .finite q =>
      let sign := if q < 0 then "-" else ""
      let a := |q|
      let ipart := Rat.floor a
      let frac := a - (ipart : ℚ)
      if frac == 0 then sign ++ toString ipart.toNat
      else sign ++ toString ipart.toNat ++ "." ++ String.mk (fracDigits 64 frac)

/-- `Value::stringify` from `src/env.rs`. -/
def Value.stringify : Value → String
  | .Number v => f64ToString v
  | .Str s => s

/-- `HashMap::get` on the variable map (first binding of the key). -/
def lookupValue (m : List (String × Value)) (k : String) : Option Value :=
  match m with
  | [] => none
  | (k2, v) :: rest => if k2 == k then some v else lookupValue rest k

/-- `HashMap::insert` on the variable map: overwrite or append. -/
def insertValue (m : List (String × Value)) (k : String) (v : Value) :
    List (String × Value) :=
  match m with
  | [] => [(k, v)]
  | (k2, v2) :: rest =>
      if k2 == k then (k2, v) :: rest else (k2, v2) :: insertValue rest k v

/-- `GlobalEnvironment` from `src/env.rs`: variable map plus current stage. -/
structure GlobalEnvironment where
  values : List (String × Value)
  stage : String
deriving DecidableEq, Repr

/-- `GlobalEnvironment::new`: empty variables, stage `"initial"`. -/
def GlobalEnvironment.new : GlobalEnvironment :=
  { values := [], stage := "initial" }

/-- `GlobalEnvironment::string_convert_to_value`: numeric strings become
`Number`, everything else `String`. -/
def stringConvertToValue (s : String) : Value :=
  match parseF64 s with
  | some v => .Number v
  | none => .Str s

/-- `GlobalEnvironment::define`: insert (overwriting) the converted value. -/
def GlobalEnvironment.define (env : GlobalEnvironment) (name : String)
    (value : String) : GlobalEnvironment :=
  { env with values := insertValue env.values name (stringConvertToValue value) }

/-- `GlobalEnvironment::get`. -/
def GlobalEnvironment.get (env : GlobalEnvironment) (name : String) : Option Value :=
  lookupValue env.values name

/-! ## A regular-expression engine modelling the `regex` crate

The interpreter builds `RegexBuilder::new(&format!("^{}$", pattern))
.case_insensitive(true).build()` and calls `is_match`. We model the
library over the syntax subset the scripts use: literal characters, `.`,
`*`, `+`, `?`, alternation `|` and groups `(...)`. Unsupported syntax
(classes, escapes, braces, stray anchors) is treated as failing to build,
like an invalid pattern. Matching is by Brzozowski derivatives; because
the source anchors both ends, `Regex.isMatchFull` is whole-string match,
and case-insensitivity folds characters to lower case. -/

/-- Regular-expression abstract syntax. -/
inductive Regex where
  | nul
  | eps
  | char (c : Char)
  | dot
  | seq (a b : Regex)
  | alt (a b : Regex)
  | star (a : Regex)
deriving DecidableEq, Repr

/-- Does the regex accept the empty string? -/
def Regex.nullable : Regex → Bool
  | .nul => false
  | .eps => true
  | .char _ => false
  | .dot => false
  | .seq a b => a.nullable && b.nullable
  | .alt a b => a.nullable || b.nullable
  | .star _ => true

/-- Brzozowski derivative by character `c`, case-insensitively. -/
def Regex.deriv (c : Char) : Regex → Regex
  | .nul => .nul
  | .eps => .nul
  | .char d => if c.toLower == d.toLower then .eps else .nul
  | .dot => .eps
  | .seq a b =>
      if a.nullable then .alt (.seq (a.deriv c) b) (b.deriv c)
      else .seq (a.deriv c) b
  | .alt a b => .alt (a.deriv c) (b.deriv c)
  | .star a => .seq (a.deriv c) (.star a)

/-- Whole-string (anchored) case-insensitive match. -/
def Regex.isMatchFull (r : Regex) (s : String) : Bool :=
  (s.toList.foldl (fun r c => r.deriv c) r).nullable

mutual

/-- `alt ::= seq ('|' seq)*` -/
def parseRAlt : Nat → List Char → Option (Regex × List Char)
  | 0, _ => none
  | fuel + 1, cs =>
      match parseRSeq fuel cs with
      | none => none
      | some (r, cs2) => parseRAltRest fuel r cs2

/-- Remaining `'|' seq` branches. -/
def parseRAltRest : Nat → Regex → List Char → Option (Regex × List Char)
  | 0, _, _ => none
  | fuel + 1, r, cs =>
      match cs with
      | '|' :: rest =>
          match parseRSeq fuel rest with
          | none => none
          | some (r2, rest2) => parseRAltRest fuel (.alt r r2) rest2
      | _ => some (r, cs)

/-- `seq ::= piece*` -/
def parseRSeq : Nat → List Char → Option (Regex × List Char)
  | 0, _ => none
  | fuel + 1, cs => parseRSeqRest fuel .eps cs

/-- Remaining pieces of a concatenation. -/
def parseRSeqRest : Nat → Regex → List Char → Option (Regex × List Char)
  | 0, _, _ => none
  | fuel + 1, r, cs =>
      match cs with
      | [] => some (r, [])
      | c :: _ =>
          if c == '|' || c == ')' then some (r, cs)
          else
            match parseRPiece fuel cs with
            | none => none
            | some (p, cs2) => parseRSeqRest fuel (.seq r p) cs2

/-- `piece ::= atom ('*' | '+' | '?')?` -/
def parseRPiece : Nat → List Char → Option (Regex × List Char)
  | 0, _ => none
  | fuel + 1, cs =>
      match parseRAtom fuel cs with
      | none => none
      | some (a, cs2) =>
          match cs2 with
          | '*' :: rest => some (.star a, rest)
          | '+' :: rest => some (.seq a (.star a), rest)
          | '?' :: rest => some (.alt a .eps, rest)
          | _ => some (a, cs2)

/-- `atom ::= '(' alt ')' | '.' | literal` — metacharacters and the
unsupported syntax (classes, escapes, braces, anchors) fail the build. -/
def parseRAtom : Nat → List Char → Option (Regex × List Char)
  | 0, _ => none
  | fuel + 1, cs =>
      match cs with
      | [] => none
      | '(' :: rest =>
          match parseRAlt fuel rest with
          | none => none
          | some (r, rest2) =>
              match rest2 with
              | ')' :: rest3 => some (r, rest3)
              | _ => none
      | '.' :: rest => some (.dot, rest)
      | c :: rest =>
          if c == ')' || c == '|' || c == '*' || c == '+' || c == '?' ||
             c == '[' || c == ']' || c == '\\' || c == '^' || c == '$' ||
             c == '\x7b' || c == '\x7d' then none
          else some (.char c, rest)

end

/-- `RegexBuilder::new(&format!("^{}$", pattern)).case_insensitive(true)
.build()`: compile the inner pattern; `none` models `Err` from the
builder. The `^`/`$` the source adds around the whole pattern turn
matching into `Regex.isMatchFull`. -/
def buildRegex (pattern : String) : Option Regex :=
  match parseRAlt (8 * pattern.toList.length + 8) pattern.toList with
  | some (r, []) => some r
  | _ => none

/-! ## The interpreter (`src/interpreter.rs`) -/

/-- Runtime outcomes: `err stage msg` is `Error::Runtime` together with
the diagnostic that `Interpreter::error` prints (`[stage ..] Error
(Runtime Error): msg`); `crash` models a Rust panic. -/
inductive RtErr where
  | err (stage msg : String)
  | crash (msg : String)
deriving DecidableEq, Repr

/-- `str::starts_with('"')`. -/
def startsWithQuote (s : String) : Bool :=
  s.toList.head? == some '"'

/-- `str::ends_with('"')`. -/
def endsWithQuote (s : String) : Bool :=
  s.toList.getLast? == some '"'

/-- `str::contains('+')`. -/
def containsPlus (s : String) : Bool :=
  s.toList.any (· == '+')

/-- `str::trim`: strip leading and trailing whitespace (the source trims
Unicode whitespace; the scripts only ever carry ASCII whitespace). -/
def strTrim (s : String) : String :=
  String.mk
    (((s.toList.dropWhile Char.isWhitespace).reverse.dropWhile
        Char.isWhitespace).reverse)

/-- Splitting on a separator character, keeping empty pieces, as
`str::split('+')` does. -/
def splitCharAux (c : Char) : List Char → List Char → List (List Char)
  | [], acc => [acc.reverse]
  | d :: rest, acc =>
      if d == c then acc.reverse :: splitCharAux c rest []
      else splitCharAux c rest (d :: acc)

/-- `str::split('+')` as a list of strings. -/
def splitPlus (s : String) : List String :=
  (splitCharAux '+' s.toList []).map String.mk

/-- `str::trim_matches('"')`: remove all leading and trailing
double-quote characters. -/
def trimQuotes (s : String) : String :=
  String.mk (((s.toList.dropWhile (· == '"')).reverse.dropWhile (· == '"')).reverse)

/-- One step of `Interpreter::parse_expression`'s loop over the parts
(`src/interpreter.rs`, lines 159-174), with the accumulated result. -/
def parseExpressionGo (env : GlobalEnvironment) (stage : String) (acc : String) :
    List String → Except RtErr String
  | [] => .ok acc
  | p :: rest =>
      if startsWithQuote p && endsWithQuote p then
        parseExpressionGo env stage (acc ++ trimQuotes p) rest
      else
        match env.get p with
        | some v => parseExpressionGo env stage (acc ++ v.stringify) rest
        | none => .error (.err stage ("Undefined variable '" ++ p ++ "'"))

/-- `Interpreter::parse_expression` (`src/interpreter.rs`, lines 155-177):
split on `'+'`, trim each part, then resolve and concatenate. -/
def parseExpression (env : GlobalEnvironment) (stage : String) (speak : String) :
    Except RtErr String :=
  parseExpressionGo env stage "" ((splitPlus speak).map strTrim)

/-- `Interpreter::format_output` (`src/interpreter.rs`, lines 140-153):
fully quote-wrapped templates without `'+'` are returned with the quotes
stripped; everything else goes through `parse_expression`. -/
def formatOutput (env : GlobalEnvironment) (stage : String) (speak : String) :
    Except RtErr String :=
  if startsWithQuote speak && endsWithQuote speak then
    if containsPlus speak then parseExpression env stage speak
    else .ok (trimQuotes speak)
  else parseExpression env stage speak

/-- The first loop of `Interpreter::interpret_match_blocks`
(`src/interpreter.rs`, lines 104-116): scan for an arm whose pattern is
the literal `EMPTY`; on the first hit, succeed if it is the only arm and
fail otherwise. `arms` is the full list, the third argument the suffix
still to scan. -/
def emptyScan (stage : String) (arms : List MatchBlock) :
    List MatchBlock → Option (Except RtErr MatchBlock)
  | [] => none
  | b :: rest =>
      if b.pattern == "EMPTY" then
        if arms.length == 1 then some (.ok b)
        else some (.error (.err stage "Match pattern 'EMPTY' must be the only pattern"))
      else emptyScan stage arms rest

/-- The pattern preprocessing of `src/interpreter.rs`, line 122:
`pattern.trim().trim_matches('"')`. -/
def armPattern (b : MatchBlock) : String :=
  trimQuotes (strTrim b.pattern)

/-- The second loop of `Interpreter::interpret_match_blocks`
(`src/interpreter.rs`, lines 119-137): first arm whose anchored
case-insensitive regex matches the trimmed input wins; a pattern that
fails to build panics through `unwrap`; no match is `Error::Runtime`. -/
def regexScan (stage : String) (input : String) :
    List MatchBlock → Except RtErr MatchBlock
  | [] => .error (.err stage "No match pattern")
  | b :: rest =>
      match buildRegex (armPattern b) with
      | none => .error (.crash "Result::unwrap on an Err value")
      | some re =>
          if re.isMatchFull input then .ok b else regexScan stage input rest

/-- `Interpreter::interpret_match_blocks` (`src/interpreter.rs`, lines
100-138): the `EMPTY` scan reads no input; otherwise one line is read,
trimmed and matched against the arms in order. Returns the chosen arm and
the input cursor. -/
def interpretMatchBlocks (stage : String) (arms : List MatchBlock)
    (inputs : Nat → String) (idx : Nat) : Except RtErr (MatchBlock × Nat) :=
  match emptyScan stage arms arms with
  | some (.ok b) => .ok (b, idx)
  | some (.error e) => .error e
  | none =>
      match regexScan stage (strTrim (inputs idx)) arms with
      | .ok b => .ok (b, idx + 1)
      | .error e => .error e

/-- `Interpreter::interpret_input_block` (`src/interpreter.rs`, lines
81-86): read one line, trim it, define the variable. -/
def interpretInputBlock (env : GlobalEnvironment) (ib : InputBlock)
    (inputs : Nat → String) (idx : Nat) : GlobalEnvironment × Nat :=
  (env.define ib.input_var (strTrim (inputs idx)), idx + 1)

/-- Interpreter state: the environment (with the current stage), the
input cursor, and the lines printed so far. -/
structure IState where
  env : GlobalEnvironment
  idx : Nat
  output : List String
deriving DecidableEq, Repr

/-- One iteration of the `loop` in `Interpreter::interpret`
(`src/interpreter.rs`, lines 42-67): look the stage up, resolve and print
its speak line, apply the transition. An error carries the output as of
the failure (the speak line of a stage whose match fails was already
printed; a stage whose lookup or formatting fails printed nothing). -/
def stepI (stages : Stages) (inputs : Nat → String) (st : IState) :
    Except (RtErr × List String) IState :=
  match lookupStage stages st.env.stage with
  | none => .error (.err st.env.stage "Stage not found", st.output)
  | some sb =>
      match formatOutput st.env st.env.stage sb.speak with
      | .error e => .error (e, st.output)
      | .ok speak =>
          let out2 := st.output ++ [speak]
          match sb.transition with
          | .Input ib =>
              let (env2, idx2) := interpretInputBlock st.env ib inputs st.idx
              .ok { env := { env2 with stage := ib.next_stage }, idx := idx2,
                    output := out2 }
          | .Match arms =>
              match interpretMatchBlocks st.env.stage arms inputs st.idx with
              | .error e => .error (e, out2)
              | .ok (mb, idx2) =>
                  .ok { env := { st.env with stage := mb.next_stage }, idx := idx2,
                        output := out2 }

/-- Result of running the interpreter loop with fuel: `ok` is the `Ok(())`
return (final state included for observation), `fail` an `Error::Runtime`
or panic with the output printed up to that point, `fuelOut` an artifact
of bounding the unbounded source loop. -/
inductive RunResult where
  | ok (st : IState)
  | fail (e : RtErr) (out : List String)
  | fuelOut (st : IState)
deriving DecidableEq, Repr

/-- The `loop` of `Interpreter::interpret`, fuelled: iterate `stepI`
until the current stage becomes `"EXIT"`. -/
def run (stages : Stages) (inputs : Nat → String) : Nat → IState → RunResult
  | 0, st => .fuelOut st
  | fuel + 1, st =>
      match stepI stages inputs st with
      | .error (e, out) => .fail e out
      | .ok st2 => if st2.env.stage == "EXIT" then .ok st2 else run stages inputs fuel st2

/-- `Interpreter::interpret` from a fresh `Interpreter::new`
(`src/interpreter.rs` lines 26-30 and 41-70), fuelled. -/
def interpret (stages : Stages) (inputs : Nat → String) (fuel : Nat) : RunResult :=
  run stages inputs fuel { env := GlobalEnvironment.new, idx := 0, output := [] }

end ServiceRobot

namespace ServiceRobot

/-! ## Definitions used only by theorem statements -/

/-- Resolution of one template part as §4.3 of the spec words it: a
quote-wrapped part is a literal with the quotes stripped, anything else a
variable looked up in the environment, stringified. Used to state the
refinement of `formatOutput` against the spec (claim C5). -/
def resolvePartSpec (env : GlobalEnvironment) (stage : String) (p : String) :
    Except RtErr String :=
  if startsWithQuote p && endsWithQuote p then .ok (trimQuotes p)
  else
    match env.get p with
    | some v => .ok v.stringify
    | none => .error (.err stage ("Undefined variable '" ++ p ++ "'"))

/-- Resolve every part left to right, failing at the first unresolved one. -/
def resolvePartsSpec (env : GlobalEnvironment) (stage : String) :
    List String → Except RtErr (List String)
  | [] => .ok []
  | p :: rest =>
      match resolvePartSpec env stage p with
      | .error e => .error e
      | .ok s =>
          match resolvePartsSpec env stage rest with
          | .error e => .error e
          | .ok ss => .ok (s :: ss)

/-- The spec's `formatOutput` (§4.3), stated from its words: fast path for
fully-quoted `'+'`-free templates, otherwise split on `'+'`, trim, resolve
each part and concatenate left to right with no separator. -/
def formatOutputSpec (env : GlobalEnvironment) (stage : String) (speak : String) :
    Except RtErr String :=
  if startsWithQuote speak && endsWithQuote speak && !containsPlus speak then
    .ok (trimQuotes speak)
  else
    match resolvePartsSpec env stage ((splitPlus speak).map strTrim) with
    | .ok parts => .ok (parts.foldl (· ++ ·) "")
    | .error e => .error e

/-- Whether an arm's processed pattern builds, and if so whether it
matches the given (already trimmed) input: `none` models the builder
failing (the source would panic), `some b` a built regex with match
result `b`. -/
def armMatches (b : MatchBlock) (input : String) : Option Bool :=
  (buildRegex (armPattern b)).map (fun re => re.isMatchFull input)

/-- De-parse a Match arm list back into `MATCH pattern` / `NEXT stage`
command pairs, in arm order. -/
def deparseArms : List MatchBlock → List Command
  | [] => []
  | b :: rest =>
      Command.mk (.MATCH b.pattern) 0 :: Command.mk (.NEXT b.next_stage) 0 ::
        deparseArms rest

/-- De-parse one stage: `STAGE`, `SPEAK`, then its transition group(s). -/
def deparseStage (sb : StageBlock) : List Command :=
  Command.mk (.STAGE sb.stage) 0 :: Command.mk (.SPEAK sb.speak) 0 ::
    (match sb.transition with
     | .Match arms => deparseArms arms
     | .Input ib =>
         [Command.mk (.INPUT ib.input_var) 0, Command.mk (.NEXT ib.next_stage) 0])

/-- De-parse a stage map into the corresponding command sequence. -/
def deparse : Stages → List Command
  | [] => []
  | (_, sb) :: rest => deparseStage sb ++ deparse rest

/-- A transition the parser can have produced: a Match carries at least
one arm. -/
def Transition.armsNonempty : Transition → Bool
  | .Match arms => !arms.isEmpty
  | .Input _ => true

/-- A well-formed stage map: each block is keyed by its own stage name,
every Match transition has at least one arm, and keys are unique. -/
def wellFormed (m : Stages) : Prop :=
  (∀ kv ∈ m, kv.2.stage = kv.1 ∧ kv.2.transition.armsNonempty = true) ∧
    (m.map Prod.fst).Nodup

instance (m : Stages) : Decidable (wellFormed m) := by
  unfold wellFormed; infer_instance

/-- Running the parse pipeline from an arbitrary intermediate state. -/
def parseFrom (st : PState) (commands : List Command) : Except PErr Stages :=
  match parseLoop st commands with
  | .error e => .error e
  | .ok st2 => flushStage st2

/-- Arms of the cyclic demo stage: `"again"` loops back, `"done"` exits. -/
def cycArms : List MatchBlock :=
  [MatchBlock.mk "\"again\"" "initial", MatchBlock.mk "\"done\"" "EXIT"]

/-- The block of the cyclic demo stage. -/
def cycBlock : StageBlock :=
  StageBlock.mk "initial" "\"Continue?\"" (Transition.Match cycArms)

/-- A one-stage cyclic stage graph: `"again"` loops back to the same
stage, `"done"` routes to `EXIT`. Used to state that the interpreter loop
has no iteration bound (claim C1). -/
def cycStages : Stages :=
  [("initial", cycBlock)]

/-- Inputs answering `"again"` for the first `n` prompts, then `"done"`. -/
def cycInputs (n : Nat) : Nat → String :=
  fun i => if i < n then "again" else "done"

/-- The two-stage script of §8 of the spec (greet, read `name`, greet by
name, `EMPTY`-exit). -/
def demoStages : Stages :=
  [("initial", StageBlock.mk "initial" "\"Hello, what's your name?\""
      (Transition.Input (InputBlock.mk "name" "next"))),
   ("next", StageBlock.mk "next" "\"Hello, \" + name"
      (Transition.Match [MatchBlock.mk "EMPTY" "EXIT"]))]

end ServiceRobot

namespace ServiceRobot

/-! ## Helper lemmas -/

theorem lookupValue_insertValue_self (m : List (String × Value)) (k : String)
    (v : Value) : lookupValue (insertValue m k v) k = some v := by
  induction m with
  | nil => simp [insertValue, lookupValue]
  | cons kv rest ih =>
      obtain ⟨k2, v2⟩ := kv
      by_cases h : k2 == k
      · simp [insertValue, h, lookupValue]
      · simp [insertValue, h, lookupValue, ih]

theorem lookupStage_append (l1 l2 : Stages) (k : String) :
    lookupStage (l1 ++ l2) k =
      (match lookupStage l1 k with
       | some v => some v
       | none => lookupStage l2 k) := by
  induction l1 with
  | nil => simp [lookupStage]
  | cons kv rest ih =>
      obtain ⟨k2, v2⟩ := kv
      by_cases h : k2 == k <;> simp [lookupStage, h, ih]

theorem insertStage_fresh (l : Stages) (k : String) (v : StageBlock)
    (h : lookupStage l k = none) : insertStage l k v = l ++ [(k, v)] := by
  induction l with
  | nil => simp [insertStage]
  | cons kv rest ih =>
      obtain ⟨k2, v2⟩ := kv
      by_cases h2 : k2 == k
      · simp [lookupStage, h2] at h
      · simp only [lookupStage, h2, if_neg] at h
        simp [insertStage, h2, ih h]

theorem parseLoop_append (l1 l2 : List Command) (st : PState) :
    parseLoop st (l1 ++ l2) =
      (match parseLoop st l1 with
       | .error e => .error e
       | .ok st2 => parseLoop st2 l2) := by
  induction l1 generalizing st with
  | nil => simp [parseLoop]
  | cons c rest ih =>
      simp only [List.cons_append, parseLoop]
      cases parseStep st c with
      | error e => rfl
      | ok st2 => exact ih st2

theorem emptyScan_of_no_empty (stage : String) (arms : List MatchBlock) :
    ∀ l, (∀ b ∈ l, b.pattern ≠ "EMPTY") → emptyScan stage arms l = none := by
  intro l
  induction l with
  | nil => intro _; rfl
  | cons b rest ih =>
      intro h
      have hb : b.pattern ≠ "EMPTY" := h b (by simp)
      simp only [emptyScan, beq_iff_eq]
      rw [if_neg hb]
      exact ih (fun a ha => h a (by simp [ha]))

theorem emptyScan_of_multi (stage : String) (arms : List MatchBlock)
    (hlen : arms.length ≠ 1) :
    ∀ l, (∃ b ∈ l, b.pattern = "EMPTY") →
      emptyScan stage arms l =
        some (.error (.err stage "Match pattern 'EMPTY' must be the only pattern")) := by
  intro l
  induction l with
  | nil => rintro ⟨b, hb, _⟩; simp at hb
  | cons b rest ih =>
      rintro ⟨b2, hb2, hpat⟩
      simp only [emptyScan, beq_iff_eq]
      by_cases h : b.pattern = "EMPTY"
      · rw [if_pos h, if_neg (by simpa using hlen)]
      · rw [if_neg h]
        apply ih
        rcases List.mem_cons.mp hb2 with rfl | hmem
        · exact absurd hpat h
        · exact ⟨b2, hmem, hpat⟩

theorem regexScan_skip (stage input : String) (pre rest : List MatchBlock)
    (h : ∀ a ∈ pre, ∃ re, buildRegex (armPattern a) = some re ∧
        re.isMatchFull input = false) :
    regexScan stage input (pre ++ rest) = regexScan stage input rest := by
  induction pre with
  | nil => rfl
  | cons a pre2 ih =>
      obtain ⟨re, hre, hm⟩ := h a (by simp)
      simp only [List.cons_append, regexScan, hre, hm]
      exact ih (fun a2 ha2 => h a2 (by simp [ha2]))

/-! ## Claims -/

/-- C3: a Match transition whose single arm has the literal pattern
`EMPTY` transitions to that arm's `nextStage` without consuming input; if
an `EMPTY` arm coexists with any other arm the interpreter raises the
runtime error `Match pattern 'EMPTY' must be the only pattern`; and the
parser accepts such a command stream without error, so the violation is
only caught at run time. -/
theorem C3_empty_pattern :
    (∀ (stage : String) (b : MatchBlock) (inputs : Nat → String) (idx : Nat),
      b.pattern = "EMPTY" →
      interpretMatchBlocks stage [b] inputs idx = .ok (b, idx)) ∧
    (∀ (stage : String) (arms : List MatchBlock) (inputs : Nat → String) (idx : Nat),
      (∃ b ∈ arms, b.pattern = "EMPTY") → 1 < arms.length →
      interpretMatchBlocks stage arms inputs idx =
        .error (.err stage "Match pattern 'EMPTY' must be the only pattern")) ∧
    (∀ (s t a p b : String),
      parse [Command.mk (.STAGE s) 1, Command.mk (.SPEAK t) 2,
             Command.mk (.MATCH "EMPTY") 3, Command.mk (.NEXT a) 4,
             Command.mk (.MATCH p) 5, Command.mk (.NEXT b) 6] =
        .ok [(s, StageBlock.mk s t
              (.Match [MatchBlock.mk "EMPTY" a, MatchBlock.mk p b]))]) := by
  refine ⟨?_, ?_, ?_⟩
  · intro stage b inputs idx h
    simp [interpretMatchBlocks, emptyScan, h]
  · intro stage arms inputs idx hex hlen
    have := emptyScan_of_multi stage arms (by omega) arms hex
    simp [interpretMatchBlocks, this]
  · intro s t a p b
    rfl

/-- C3 witness: the single-`EMPTY` transition consumes no input, and an
`EMPTY` arm next to a second arm fails with the runtime error. -/
theorem C3_empty_pattern_witness :
    interpretMatchBlocks "st" [MatchBlock.mk "EMPTY" "EXIT"] (fun _ => "x") 5 =
      .ok (MatchBlock.mk "EMPTY" "EXIT", 5) ∧
    interpretMatchBlocks "st"
        [MatchBlock.mk "EMPTY" "EXIT", MatchBlock.mk "\"world\"" "EXIT"]
        (fun _ => "x") 0 =
      .error (.err "st" "Match pattern 'EMPTY' must be the only pattern") :=
  ⟨C3_empty_pattern.1 "st" (MatchBlock.mk "EMPTY" "EXIT") (fun _ => "x") 5 rfl,
   C3_empty_pattern.2.1 "st"
     [MatchBlock.mk "EMPTY" "EXIT", MatchBlock.mk "\"world\"" "EXIT"]
     (fun _ => "x") 0 ⟨MatchBlock.mk "EMPTY" "EXIT", by simp, rfl⟩ (by simp)⟩

/-- C4: a command stream that opens a STAGE and records a SPEAK but never
completes a MATCH/INPUT+NEXT group before the stream ends makes `parse`
panic (`current_transition.unwrap()` on `None`), modelled as the `crash`
outcome — it does not return ParseError as the spec requires, though it
also neither drops the stage nor inserts a transitionless block. -/
theorem C4_unfinished_stage_flush_panics :
    (∀ (s t : String) (l1 l2 : Int),
      parse [Command.mk (.STAGE s) l1, Command.mk (.SPEAK t) l2] =
        .error .crash) ∧
    (∀ (s t p : String) (l1 l2 l3 : Int),
      parse [Command.mk (.STAGE s) l1, Command.mk (.SPEAK t) l2,
             Command.mk (.MATCH p) l3] = .error .crash) := by
  exact ⟨fun s t l1 l2 => rfl, fun s t p l1 l2 l3 => rfl⟩

/-- C8 counterexample: a MATCH command in in-match-group context (a
previous MATCH with no NEXT yet) is rejected with ParseError, so the
claim that MATCH is accepted there is false. -/
theorem C8_in_match_group_rejected :
    parse [Command.mk (.STAGE "s") 1, Command.mk (.SPEAK "t") 2,
           Command.mk (.MATCH "a") 3, Command.mk (.MATCH "b") 4,
           Command.mk (.NEXT "EXIT") 5] = .error .parseError := by
  rfl

/-- C8 (amended): the parser accepts MATCH (stashing its pattern) and
DEFAULT (stashing `".*"`) exactly when the control state is after-SPEAK
or after a match NEXT; every other context — including in-match-group,
i.e. after a MATCH or DEFAULT with no NEXT yet — yields ParseError. -/
theorem C8_match_default_contexts :
    ∀ (st : PState) (p : String) (ln : Int),
      ((st.status = .Speak ∨ st.status = .MatchNext) →
        parseStep st (Command.mk (.MATCH p) ln) =
          .ok { st with status := .Match, current_pattern := some p } ∧
        parseStep st (Command.mk .DEFAULT ln) =
          .ok { st with status := .Default, current_pattern := some ".*" }) ∧
      (st.status ≠ .Speak → st.status ≠ .MatchNext →
        parseStep st (Command.mk (.MATCH p) ln) = .error .parseError ∧
        parseStep st (Command.mk .DEFAULT ln) = .error .parseError) := by
  intro st p ln
  constructor
  · rintro (h | h) <;> simp [parseStep, h]
  · intro h1 h2
    have hs : (st.status == .Speak || st.status == .MatchNext) = false := by
      cases h : st.status <;> simp_all
    simp [parseStep, hs]

/-- C8 witness: after SPEAK a MATCH is accepted; in the initial context it
is rejected. -/
theorem C8_match_default_contexts_witness :
    parseStep { PState.init with status := .Speak } (Command.mk (.MATCH "x") 7) =
      .ok { PState.init with status := .Match, current_pattern := some "x" } ∧
    parseStep PState.init (Command.mk (.MATCH "x") 7) = .error .parseError :=
  ⟨((C8_match_default_contexts { PState.init with status := .Speak } "x" 7).1
      (Or.inl rfl)).1,
   ((C8_match_default_contexts PState.init "x" 7).2
      (by simp [PState.init]) (by simp [PState.init])).1⟩

/-- C10: in a Match transition without an `EMPTY` arm, if the arms before
`b` compile and fail to match the trimmed input and `b`'s processed
pattern does not compile as a regular expression (for example the lone
`(`), `interpret_match_blocks` panics through `unwrap` — modelled as the
`crash` outcome — instead of returning a runtime error. -/
theorem C10_invalid_pattern_crashes :
    (∀ (stage : String) (arms pre post : List MatchBlock) (b : MatchBlock)
        (inputs : Nat → String) (idx : Nat),
      arms = pre ++ b :: post →
      (∀ a ∈ arms, a.pattern ≠ "EMPTY") →
      (∀ a ∈ pre, ∃ re, buildRegex (armPattern a) = some re ∧
          re.isMatchFull (strTrim (inputs idx)) = false) →
      buildRegex (armPattern b) = none →
      interpretMatchBlocks stage arms inputs idx =
        .error (.crash "Result::unwrap on an Err value")) ∧
    buildRegex (armPattern (MatchBlock.mk "(" "A")) = none := by
  constructor
  · intro stage arms pre post b inputs idx harms hne hpre hbad
    subst harms
    have hscan := emptyScan_of_no_empty stage (pre ++ b :: post) (pre ++ b :: post) hne
    have hskip := regexScan_skip stage (strTrim (inputs idx)) pre (b :: post) hpre
    simp [interpretMatchBlocks, hscan, hskip, regexScan, hbad]
  · rfl

/-- C10 witness: a single-arm list whose pattern is `(` crashes. -/
theorem C10_invalid_pattern_crashes_witness :
    interpretMatchBlocks "st" [MatchBlock.mk "(" "A"] (fun _ => "x") 0 =
      .error (.crash "Result::unwrap on an Err value") :=
  C10_invalid_pattern_crashes.1 "st" [MatchBlock.mk "(" "A"] [] []
    (MatchBlock.mk "(" "A") (fun _ => "x") 0 rfl
    (by intro a ha; simp at ha; simp [ha]) (by simp)
    C10_invalid_pattern_crashes.2

/-- C7: executing an Input transition trims the read line, binds the
variable to a `Number` when the text parses as a float and to a `String`
otherwise, overwrites any previous binding (type and value), and sets the
current stage to the transition's `nextStage`. -/
theorem C7_input_transition :
    (∀ (env : GlobalEnvironment) (name s : String) (v : F64),
      parseF64 s = some v →
      (env.define name s).get name = some (.Number v)) ∧
    (∀ (env : GlobalEnvironment) (name s : String),
      parseF64 s = none →
      (env.define name s).get name = some (.Str s)) ∧
    (∀ (env : GlobalEnvironment) (name s1 s2 : String),
      ((env.define name s1).define name s2).get name =
        some (stringConvertToValue s2)) ∧
    (∀ (stages : Stages) (inputs : Nat → String) (st : IState)
        (sb : StageBlock) (ib : InputBlock) (speak : String),
      lookupStage stages st.env.stage = some sb →
      sb.transition = .Input ib →
      formatOutput st.env st.env.stage sb.speak = .ok speak →
      stepI stages inputs st =
        .ok { env := { st.env.define ib.input_var (strTrim (inputs st.idx)) with
                         stage := ib.next_stage },
              idx := st.idx + 1, output := st.output ++ [speak] }) := by
  refine ⟨?_, ?_, ?_, ?_⟩
  · intro env name s v h
    simp [GlobalEnvironment.define, GlobalEnvironment.get,
      lookupValue_insertValue_self, stringConvertToValue, h]
  · intro env name s h
    simp [GlobalEnvironment.define, GlobalEnvironment.get,
      lookupValue_insertValue_self, stringConvertToValue, h]
  · intro env name s1 s2
    simp [GlobalEnvironment.define, GlobalEnvironment.get,
      lookupValue_insertValue_self]
  · intro stages inputs st sb ib speak hlook htr hfmt
    simp [stepI, hlook, htr, hfmt, interpretInputBlock]

/-- C7 witness: on the §8 demo script, the Input stage stores the trimmed
line `"world"` as a `String` value, moves to stage `next`, and a numeric
redefinition overwrites type and value. -/
theorem C7_input_transition_witness :
    (GlobalEnvironment.new.define "name" "world").get "name" =
      some (.Str "world") ∧
    ((GlobalEnvironment.new.define "a" "world").define "a" "1").get "a" =
      some (stringConvertToValue "1") ∧
    stepI demoStages (fun _ => " world ")
        { env := GlobalEnvironment.new, idx := 0, output := [] } =
      .ok { env := { GlobalEnvironment.new.define "name" "world" with
                       stage := "next" },
            idx := 1, output := ["Hello, what's your name?"] } :=
  ⟨C7_input_transition.2.1 GlobalEnvironment.new "name" "world" rfl,
   C7_input_transition.2.2.1 GlobalEnvironment.new "a" "world" "1",
   C7_input_transition.2.2.2 demoStages (fun _ => " world ")
     { env := GlobalEnvironment.new, idx := 0, output := [] }
     (StageBlock.mk "initial" "\"Hello, what's your name?\""
       (Transition.Input (InputBlock.mk "name" "next")))
     (InputBlock.mk "name" "next") "Hello, what's your name?" rfl rfl rfl⟩

end ServiceRobot

namespace ServiceRobot

theorem parseExpressionGo_reaches_error (env : GlobalEnvironment)
    (stage : String) (p : String) (rest : List String)
    (hp : (startsWithQuote p && endsWithQuote p) = false)
    (hget : env.get p = none) :
    ∀ (pre : List String) (acc : String),
      (∀ q ∈ pre, (startsWithQuote q && endsWithQuote q) = true ∨
          ∃ v, env.get q = some v) →
      parseExpressionGo env stage acc (pre ++ p :: rest) =
        .error (.err stage ("Undefined variable '" ++ p ++ "'")) := by
  intro pre
  induction pre with
  | nil =>
      intro acc _
      simp [parseExpressionGo, hp, hget]
  | cons q pre2 ih =>
      intro acc hres
      have htail : ∀ r ∈ pre2, (startsWithQuote r && endsWithQuote r) = true ∨
          ∃ v, env.get r = some v := fun r hr => hres r (by simp [hr])
      by_cases hq : (startsWithQuote q && endsWithQuote q) = true
      · simp only [List.cons_append, parseExpressionGo, hq, if_pos]
        exact ih _ htail
      · rcases hres q (by simp) with hq2 | ⟨v, hv⟩
        · exact absurd hq2 hq
        · simp only [List.cons_append, parseExpressionGo, hq, if_neg,
            Bool.not_eq_true, hv]
          exact ih _ htail

theorem strFoldl_shift (l : List String) :
    ∀ a : String, l.foldl (· ++ ·) a = a ++ l.foldl (· ++ ·) "" := by
  induction l with
  | nil => intro a; simp
  | cons x l ih =>
      intro a
      simp only [List.foldl_cons]
      rw [ih (a ++ x), ih ("" ++ x)]
      rw [show (("" ++ x : String)) = x from rfl, String.append_assoc]

theorem parseExpressionGo_spec (env : GlobalEnvironment) (stage : String) :
    ∀ (l : List String) (acc : String),
      parseExpressionGo env stage acc l =
        (match resolvePartsSpec env stage l with
         | .ok parts => .ok (acc ++ parts.foldl (· ++ ·) "")
         | .error e => .error e) := by
  intro l
  induction l with
  | nil => intro acc; simp [parseExpressionGo, resolvePartsSpec]
  | cons p rest ih =>
      intro acc
      by_cases hq : (startsWithQuote p && endsWithQuote p) = true
      · simp only [parseExpressionGo, hq, if_pos, resolvePartsSpec,
          resolvePartSpec, ih]
        cases resolvePartsSpec env stage rest with
        | error e => rfl
        | ok parts =>
            show Except.ok _ = Except.ok _
            congr 1
            conv_rhs => rw [List.foldl_cons, strFoldl_shift parts]
            simp only [show ∀ s : String, "" ++ s = s from fun s => rfl]
            rw [String.append_assoc]
      · cases hv : env.get p with
        | none =>
            simp [parseExpressionGo, hq, hv, resolvePartsSpec, resolvePartSpec]
        | some v =>
            simp only [parseExpressionGo, hq, if_neg, Bool.not_eq_true, hv,
              resolvePartsSpec, resolvePartSpec, ih]
            cases resolvePartsSpec env stage rest with
            | error e => rfl
            | ok parts =>
                show Except.ok _ = Except.ok _
                congr 1
                conv_rhs => rw [List.foldl_cons, strFoldl_shift parts]
                simp only [show ∀ s : String, "" ++ s = s from fun s => rfl]
                rw [String.append_assoc]

end ServiceRobot

namespace ServiceRobot

/-- C6: when expression evaluation reaches a part that is neither
quote-wrapped nor a defined variable, the template fails with a runtime
error whose message contains the variable name; any template that is not
on the fast path resolves through `parse_expression` before anything is
printed, so a stage whose template fails emits no output at all. -/
theorem C6_undefined_variable :
    (∀ (env : GlobalEnvironment) (stage speak : String) (pre rest : List String)
        (p : String),
      (splitPlus speak).map strTrim = pre ++ p :: rest →
      (∀ q ∈ pre, (startsWithQuote q && endsWithQuote q) = true ∨
          ∃ v, env.get q = some v) →
      (startsWithQuote p && endsWithQuote p) = false →
      env.get p = none →
      parseExpression env stage speak =
        .error (.err stage ("Undefined variable '" ++ p ++ "'")) ∧
      p.toList <:+: ("Undefined variable '" ++ p ++ "'").toList) ∧
    (∀ (env : GlobalEnvironment) (stage speak : String),
      (startsWithQuote speak && endsWithQuote speak && !containsPlus speak) = false →
      formatOutput env stage speak = parseExpression env stage speak) ∧
    (∀ (stages : Stages) (inputs : Nat → String) (st : IState)
        (sb : StageBlock) (e : RtErr) (fuel : Nat),
      lookupStage stages st.env.stage = some sb →
      formatOutput st.env st.env.stage sb.speak = .error e →
      run stages inputs (fuel + 1) st = .fail e st.output) := by
  refine ⟨?_, ?_, ?_⟩
  · intro env stage speak pre rest p hsplit hpre hp hget
    constructor
    · unfold parseExpression
      rw [hsplit]
      exact parseExpressionGo_reaches_error env stage p rest hp hget pre "" hpre
    · refine ⟨"Undefined variable '".toList, "'".toList, ?_⟩
      show "Undefined variable '".data ++ p.data ++ "'".data =
        ("Undefined variable '" ++ p ++ "'").data
      simp [String.data_append]
  · intro env stage speak h
    unfold formatOutput
    by_cases h12 : (startsWithQuote speak && endsWithQuote speak) = true
    · rw [if_pos h12]
      have h3 : containsPlus speak = true := by
        rcases Bool.eq_false_or_eq_true (containsPlus speak) with h3 | h3
        · exact h3
        · simp [h12, h3] at h
      rw [if_pos h3]
    · rw [if_neg h12]
  · intro stages inputs st sb e fuel hlook hfmt
    simp [run, stepI, hlook, hfmt]

/-- C6 witness: the spec's example `"Hi " + ghost` fails with the message
naming `ghost` and, run as a stage template, prints nothing. -/
theorem C6_undefined_variable_witness :
    (parseExpression GlobalEnvironment.new "s" "\"Hi \" + ghost" =
        .error (.err "s" "Undefined variable 'ghost'") ∧
      ("ghost" : String).toList <:+: ("Undefined variable '" ++ "ghost" ++ "'").toList) ∧
    formatOutput GlobalEnvironment.new "s" "\"Hi \" + ghost" =
      parseExpression GlobalEnvironment.new "s" "\"Hi \" + ghost" ∧
    run [("initial", StageBlock.mk "initial" "\"Hi \" + ghost"
          (Transition.Match []))] (fun _ => "x") 1
        { env := GlobalEnvironment.new, idx := 0, output := [] } =
      .fail (.err "initial" "Undefined variable 'ghost'") [] :=
  ⟨(C6_undefined_variable.1 GlobalEnvironment.new "s" "\"Hi \" + ghost"
      ["\"Hi \""] [] "ghost" rfl
      (by intro q hq; left; simp at hq; rw [hq]; rfl) rfl rfl),
   C6_undefined_variable.2.1 GlobalEnvironment.new "s" "\"Hi \" + ghost" rfl,
   C6_undefined_variable.2.2
     [("initial", StageBlock.mk "initial" "\"Hi \" + ghost" (Transition.Match []))]
     (fun _ => "x")
     { env := GlobalEnvironment.new, idx := 0, output := [] }
     (StageBlock.mk "initial" "\"Hi \" + ghost" (Transition.Match []))
     (.err "initial" "Undefined variable 'ghost'") 0 rfl rfl⟩

/-- C5: `format_output` coincides with the spec's description everywhere:
a fully quote-wrapped template without `'+'` is returned verbatim with
the wrapping quotes stripped; any other template is split on `'+'`, its
parts trimmed, quote-wrapped parts taken literally (quotes stripped),
all other parts resolved as variables (Numbers through numeric-to-string
conversion, Strings verbatim), and the resolved parts concatenated left
to right with no separator. -/
theorem C5_format_output_refines_spec :
    ∀ (env : GlobalEnvironment) (stage speak : String),
      formatOutput env stage speak = formatOutputSpec env stage speak := by
  intro env stage speak
  unfold formatOutput formatOutputSpec
  by_cases h12 : (startsWithQuote speak && endsWithQuote speak) = true
  · rw [if_pos h12]
    rcases Bool.eq_false_or_eq_true (containsPlus speak) with h3 | h3
    · rw [if_pos h3, if_neg (by simp [h12, h3])]
      unfold parseExpression
      rw [parseExpressionGo_spec]
      cases resolvePartsSpec env stage ((splitPlus speak).map strTrim) <;> rfl
    · rw [if_neg (by simp [h3]), if_pos (by simp [h12, h3])]
  · rw [if_neg h12, if_neg (by simp [h12])]
    unfold parseExpression
    rw [parseExpressionGo_spec]
    cases resolvePartsSpec env stage ((splitPlus speak).map strTrim) <;> rfl

end ServiceRobot

namespace ServiceRobot

theorem armMatches_some_iff (b : MatchBlock) (input : String) (r : Bool) :
    armMatches b input = some r ↔
      ∃ re, buildRegex (armPattern b) = some re ∧ re.isMatchFull input = r := by
  unfold armMatches
  cases h : buildRegex (armPattern b) <;> simp [h]

/-- C2: in a Match transition without an `EMPTY` arm the arms are tried
in declaration order against the trimmed input line — each pattern is
whitespace-trimmed, stripped of its surrounding quotes, anchored with
`^`/`$` and matched case-insensitively (all of which `armMatches`
packages) — the first matching arm is returned with one line of input
consumed; if every arm fails to match the result is the runtime error
`No match pattern`, and any step error aborts the whole run; in
particular input `YES` routes through pattern `"yes"`. -/
theorem C2_match_first_wins :
    (∀ (stage : String) (arms pre post : List MatchBlock) (b : MatchBlock)
        (inputs : Nat → String) (idx : Nat),
      arms = pre ++ b :: post →
      (∀ a ∈ arms, a.pattern ≠ "EMPTY") →
      (∀ a ∈ pre, armMatches a (strTrim (inputs idx)) = some false) →
      armMatches b (strTrim (inputs idx)) = some true →
      interpretMatchBlocks stage arms inputs idx = .ok (b, idx + 1)) ∧
    (∀ (stage : String) (arms : List MatchBlock) (inputs : Nat → String)
        (idx : Nat),
      (∀ a ∈ arms, a.pattern ≠ "EMPTY") →
      (∀ a ∈ arms, armMatches a (strTrim (inputs idx)) = some false) →
      interpretMatchBlocks stage arms inputs idx =
        .error (.err stage "No match pattern")) ∧
    (∀ (stages : Stages) (inputs : Nat → String) (st : IState) (e : RtErr)
        (out : List String) (fuel : Nat),
      stepI stages inputs st = .error (e, out) →
      run stages inputs (fuel + 1) st = .fail e out) ∧
    (interpretMatchBlocks "s" [MatchBlock.mk "yes" "A", MatchBlock.mk "no" "B"]
        (fun _ => "YES") 0 = .ok (MatchBlock.mk "yes" "A", 1) ∧
     interpretMatchBlocks "s" [MatchBlock.mk "yes" "A", MatchBlock.mk "no" "B"]
        (fun _ => "no") 0 = .ok (MatchBlock.mk "no" "B", 1) ∧
     interpretMatchBlocks "s" [MatchBlock.mk "yes" "A", MatchBlock.mk "no" "B"]
        (fun _ => "maybe") 0 = .error (.err "s" "No match pattern")) := by
  refine ⟨?_, ?_, ?_, by rfl, by rfl, by rfl⟩
  · intro stage arms pre post b inputs idx harms hne hpre hb
    subst harms
    have hscan := emptyScan_of_no_empty stage (pre ++ b :: post) (pre ++ b :: post) hne
    have hskip := regexScan_skip stage (strTrim (inputs idx)) pre (b :: post)
      (fun a ha => (armMatches_some_iff a _ false).mp (hpre a ha))
    obtain ⟨re, hre, hm⟩ := (armMatches_some_iff b _ true).mp hb
    simp [interpretMatchBlocks, hscan, hskip, regexScan, hre, hm]
  · intro stage arms inputs idx hne hall
    have hscan := emptyScan_of_no_empty stage arms arms hne
    have hskip := regexScan_skip stage (strTrim (inputs idx)) arms []
      (fun a ha => (armMatches_some_iff a _ false).mp (hall a ha))
    rw [List.append_nil] at hskip
    simp [interpretMatchBlocks, hscan, hskip, regexScan]
  · intro stages inputs st e out fuel h
    simp [run, h]

/-- C2 witness: the case-insensitive first-match rule applied concretely
(`YES` picks pattern `yes` as the first arm, `no` skips the failing first
arm), and a failing match step aborts the run. -/
theorem C2_match_first_wins_witness :
    interpretMatchBlocks "s" [MatchBlock.mk "yes" "A", MatchBlock.mk "no" "B"]
        (fun _ => " No ") 0 = .ok (MatchBlock.mk "no" "B", 1) ∧
    run [("initial", StageBlock.mk "initial" "\"q\""
          (Transition.Match [MatchBlock.mk "yes" "A"]))] (fun _ => "maybe") 1
        { env := GlobalEnvironment.new, idx := 0, output := [] } =
      .fail (.err "initial" "No match pattern") ["q"] :=
  ⟨C2_match_first_wins.1 "s"
      [MatchBlock.mk "yes" "A", MatchBlock.mk "no" "B"]
      [MatchBlock.mk "yes" "A"] [] (MatchBlock.mk "no" "B")
      (fun _ => " No ") 0 rfl
      (by intro a ha; fin_cases ha <;> simp)
      (by intro a ha; fin_cases ha; rfl) rfl,
   C2_match_first_wins.2.2.1
     [("initial", StageBlock.mk "initial" "\"q\""
        (Transition.Match [MatchBlock.mk "yes" "A"]))]
     (fun _ => "maybe")
     { env := GlobalEnvironment.new, idx := 0, output := [] }
     (.err "initial" "No match pattern") ["q"] 0 rfl⟩

end ServiceRobot

namespace ServiceRobot

theorem run_succ (stages : Stages) (inputs : Nat → String) (fuel : Nat)
    (st : IState) :
    run stages inputs (fuel + 1) st =
      (match stepI stages inputs st with
       | .error (e, out) => .fail e out
       | .ok st2 =>
           if st2.env.stage == "EXIT" then .ok st2
           else run stages inputs fuel st2) := rfl

theorem cyc_step (inputs : Nat → String) (vals : List (String × Value))
    (i : Nat) (out : List String) :
    stepI cycStages inputs { env := ⟨vals, "initial"⟩, idx := i, output := out } =
      (match regexScan "initial" (strTrim (inputs i)) cycArms with
       | .ok mb =>
           .ok { env := ⟨vals, mb.next_stage⟩, idx := i + 1,
                 output := out ++ ["Continue?"] }
       | .error e => .error (e, out ++ ["Continue?"])) := by
  have h1 : lookupStage cycStages "initial" = some cycBlock := rfl
  have h2 : formatOutput ⟨vals, "initial"⟩ "initial" "\"Continue?\"" =
      .ok "Continue?" := rfl
  have h3 : emptyScan "initial" cycArms cycArms = none := rfl
  simp only [stepI, h1, h2, cycBlock, interpretMatchBlocks, h3]
  cases regexScan "initial" (strTrim (inputs i)) cycArms with
  | ok mb => rfl
  | error e => rfl

theorem cyc_step_again (inputs : Nat → String) (vals : List (String × Value))
    (i : Nat) (out : List String) (h : inputs i = "again") :
    stepI cycStages inputs { env := ⟨vals, "initial"⟩, idx := i, output := out } =
      .ok { env := ⟨vals, "initial"⟩, idx := i + 1,
            output := out ++ ["Continue?"] } := by
  have hr : regexScan "initial" (strTrim (inputs i)) cycArms =
      .ok (MatchBlock.mk "\"again\"" "initial") := by rw [h]; rfl
  rw [cyc_step, hr]

theorem cyc_step_done (inputs : Nat → String) (vals : List (String × Value))
    (i : Nat) (out : List String) (h : inputs i = "done") :
    stepI cycStages inputs { env := ⟨vals, "initial"⟩, idx := i, output := out } =
      .ok { env := ⟨vals, "EXIT"⟩, idx := i + 1,
            output := out ++ ["Continue?"] } := by
  have hr : regexScan "initial" (strTrim (inputs i)) cycArms =
      .ok (MatchBlock.mk "\"done\"" "EXIT") := by rw [h]; rfl
  rw [cyc_step, hr]

theorem cyc_run (m : Nat) : ∀ (inputs : Nat → String) (i : Nat) (out : List String),
    (∀ k, k < m → inputs (i + k) = "again") → inputs (i + m) = "done" →
    run cycStages inputs (m + 1) { env := ⟨[], "initial"⟩, idx := i, output := out } =
      .ok { env := ⟨[], "EXIT"⟩, idx := i + m + 1,
            output := out ++ List.replicate (m + 1) "Continue?" } := by
  induction m with
  | zero =>
      intro inputs i out _ hdone
      rw [show i + 0 = i from rfl] at hdone
      have hstep := cyc_step_done inputs [] i out hdone
      simp [run, hstep]
  | succ m ih =>
      intro inputs i out hag hdone
      have hstep := cyc_step_again inputs [] i out
        (by have := hag 0 (by omega); simpa using this)
      have harg : ∀ k, k < m → inputs (i + 1 + k) = "again" := by
        intro k hk
        have := hag (k + 1) (by omega)
        rwa [show i + (k + 1) = i + 1 + k from by omega] at this
      have hdone2 : inputs (i + 1 + m) = "done" := by
        rwa [show i + (m + 1) = i + 1 + m from by omega] at hdone
      have hrec := ih inputs (i + 1) (out ++ ["Continue?"]) harg hdone2
      rw [show i + 1 + m + 1 = i + (m + 1) + 1 from by omega] at hrec
      have hfold : run cycStages inputs (m + 1 + 1)
          { env := ⟨[], "initial"⟩, idx := i, output := out } =
          run cycStages inputs (m + 1)
            { env := ⟨[], "initial"⟩, idx := i + 1,
              output := out ++ ["Continue?"] } := by
        rw [run_succ, hstep]; rfl
      rw [hfold, hrec]
      simp [List.replicate_succ]

end ServiceRobot

namespace ServiceRobot

/-- C1: interpretation starts with currentStage `"initial"`; a current
stage missing from the stage map fails with the runtime error `Stage not
found` and aborts; a run returns success exactly when the current stage
becomes `"EXIT"` (every successful run ends at `EXIT`, and a step whose
new stage is `EXIT` returns success); every successful step first emits
the stage's resolved speak line; a runtime error aborts the run; and
there is no iteration bound — for every `n` the cyclic one-stage graph
runs `n + 1` iterations and still succeeds once the input routes to
`EXIT`. -/
theorem C1_interpret_loop :
    GlobalEnvironment.new.stage = "initial" ∧
    (∀ (stages : Stages) (inputs : Nat → String) (st : IState) (fuel : Nat),
      lookupStage stages st.env.stage = none →
      run stages inputs (fuel + 1) st =
        .fail (.err st.env.stage "Stage not found") st.output) ∧
    (∀ (stages : Stages) (inputs : Nat → String) (fuel : Nat) (st st2 : IState),
      run stages inputs fuel st = .ok st2 → st2.env.stage = "EXIT") ∧
    (∀ (stages : Stages) (inputs : Nat → String) (fuel : Nat) (st st2 : IState),
      stepI stages inputs st = .ok st2 → st2.env.stage = "EXIT" →
      run stages inputs (fuel + 1) st = .ok st2) ∧
    (∀ (stages : Stages) (inputs : Nat → String) (st st2 : IState),
      stepI stages inputs st = .ok st2 →
      ∃ sb speak, lookupStage stages st.env.stage = some sb ∧
        formatOutput st.env st.env.stage sb.speak = .ok speak ∧
        st2.output = st.output ++ [speak]) ∧
    (∀ (stages : Stages) (inputs : Nat → String) (st : IState) (e : RtErr)
        (out : List String) (fuel : Nat),
      stepI stages inputs st = .error (e, out) →
      run stages inputs (fuel + 1) st = .fail e out) ∧
    (∀ n : Nat,
      run cycStages (cycInputs n) (n + 1)
          { env := GlobalEnvironment.new, idx := 0, output := [] } =
        .ok { env := ⟨[], "EXIT"⟩, idx := n + 1,
              output := List.replicate (n + 1) "Continue?" }) := by
  refine ⟨rfl, ?_, ?_, ?_, ?_, ?_, ?_⟩
  · intro stages inputs st fuel h
    simp [run, stepI, h]
  · intro stages inputs fuel
    induction fuel with
    | zero => intro st st2 h; simp [run] at h
    | succ fuel ih =>
        intro st st2 h
        rw [run_succ] at h
        cases hstep : stepI stages inputs st with
        | error p =>
            obtain ⟨e, out⟩ := p
            rw [hstep] at h
            simp at h
        | ok st3 =>
            rw [hstep] at h
            change (if st3.env.stage == "EXIT" then RunResult.ok st3
                else run stages inputs fuel st3) = RunResult.ok st2 at h
            by_cases hx : (st3.env.stage == "EXIT") = true
            · rw [if_pos hx] at h
              injection h with h2
              subst h2
              exact eq_of_beq hx
            · rw [if_neg hx] at h
              exact ih st3 st2 h
  · intro stages inputs fuel st st2 hstep hx
    rw [run_succ, hstep]
    simp [hx]
  · intro stages inputs st st2 h
    cases hl : lookupStage stages st.env.stage with
    | none => simp [stepI, hl] at h
    | some sb =>
        cases hf : formatOutput st.env st.env.stage sb.speak with
        | error e => simp [stepI, hl, hf] at h
        | ok speak =>
            cases htr : sb.transition with
            | Input ib =>
                simp only [stepI, hl, hf, htr, interpretInputBlock,
                  Except.ok.injEq] at h
                subst h
                exact ⟨sb, speak, rfl, hf, rfl⟩
            | Match arms =>
                cases hm : interpretMatchBlocks st.env.stage arms inputs st.idx with
                | error e => simp [stepI, hl, hf, htr, hm] at h
                | ok p =>
                    obtain ⟨mb, idx2⟩ := p
                    simp only [stepI, hl, hf, htr, hm, Except.ok.injEq] at h
                    subst h
                    exact ⟨sb, speak, rfl, hf, rfl⟩
  · intro stages inputs st e out fuel h
    simp [run, h]
  · intro n
    have h1 : ∀ k, k < n → cycInputs n (0 + k) = "again" := by
      intro k hk
      simp [cycInputs, Nat.zero_add, hk]
    have h2 : cycInputs n (0 + n) = "done" := by
      simp [cycInputs]
    simpa using cyc_run n (cycInputs n) 0 [] h1 h2

/-- C1 witness: the empty stage map fails at once with `Stage not found`;
the §8 demo run ends at stage `EXIT`; its final step returns success; its
first step emits the greeting; a no-match step aborts; and the cyclic
graph runs three iterations for `n = 2`. -/
theorem C1_interpret_loop_witness :
    run [] (fun _ => "") 1 { env := GlobalEnvironment.new, idx := 0, output := [] } =
      .fail (.err "initial" "Stage not found") [] ∧
    ({ env := ⟨[("name", Value.Str "world")], "EXIT"⟩, idx := 1,
       output := ["Hello, what's your name?", "Hello, world"] } : IState).env.stage
      = "EXIT" ∧
    (∃ sb speak, lookupStage demoStages
        ({ env := GlobalEnvironment.new, idx := 0, output := [] } : IState).env.stage
        = some sb ∧
      formatOutput GlobalEnvironment.new "initial" sb.speak = .ok speak ∧
      (["Hello, what's your name?"] : List String) = [] ++ [speak]) ∧
    run cycStages (cycInputs 2) 3 { env := GlobalEnvironment.new, idx := 0, output := [] } =
      .ok { env := ⟨[], "EXIT"⟩, idx := 3, output := List.replicate 3 "Continue?" } :=
  ⟨C1_interpret_loop.2.1 [] (fun _ => "")
     { env := GlobalEnvironment.new, idx := 0, output := [] } 0 rfl,
   C1_interpret_loop.2.2.1 demoStages (fun _ => "world") 5
     { env := GlobalEnvironment.new, idx := 0, output := [] }
     { env := ⟨[("name", Value.Str "world")], "EXIT"⟩, idx := 1,
       output := ["Hello, what's your name?", "Hello, world"] } rfl,
   C1_interpret_loop.2.2.2.2.1 demoStages (fun _ => "world")
     { env := GlobalEnvironment.new, idx := 0, output := [] }
     { env := { GlobalEnvironment.new.define "name" "world" with stage := "next" },
       idx := 1, output := ["Hello, what's your name?"] } rfl,
   C1_interpret_loop.2.2.2.2.2.2 2⟩

end ServiceRobot

namespace ServiceRobot

theorem parseFrom_append (st st2 : PState) (l1 l2 : List Command)
    (h : parseLoop st l1 = .ok st2) :
    parseFrom st (l1 ++ l2) = parseFrom st2 l2 := by
  unfold parseFrom
  rw [parseLoop_append, h]

theorem parseLoop_deparseArms (tail : List Command) :
    ∀ (arest blocks : List MatchBlock) (acc : Stages) (cs csp cp : Option String),
      ∃ cp2 : Option String,
        parseLoop (PState.mk acc cs csp (some (.Match blocks)) cp .MatchNext)
            (deparseArms arest ++ tail) =
          parseLoop (PState.mk acc cs csp (some (.Match (blocks ++ arest))) cp2
            .MatchNext) tail := by
  intro arest
  induction arest with
  | nil =>
      intro blocks acc cs csp cp
      exact ⟨cp, by simp [deparseArms]⟩
  | cons a arest ih =>
      intro blocks acc cs csp cp
      obtain ⟨cp2, hcp⟩ := ih (blocks ++ [a]) acc cs csp (some a.pattern)
      refine ⟨cp2, ?_⟩
      have h1 : parseLoop (PState.mk acc cs csp (some (.Match blocks)) cp
            .MatchNext) (deparseArms (a :: arest) ++ tail) =
          parseLoop (PState.mk acc cs csp (some (.Match (blocks ++ [a])))
            (some a.pattern) .MatchNext) (deparseArms arest ++ tail) := rfl
      rw [h1, hcp]
      have h2 : blocks ++ [a] ++ arest = blocks ++ a :: arest := by simp
      rw [h2]

theorem parseFrom_deparse :
    ∀ (m : Stages) (st : PState) (acc : Stages),
      (st.status = .Init ∨ st.status = .MatchNext ∨ st.status = .InputNext) →
      flushStage st = .ok acc →
      (∀ kv ∈ m, kv.2.stage = kv.1 ∧ kv.2.transition.armsNonempty = true) →
      (m.map Prod.fst).Nodup →
      (∀ k ∈ m.map Prod.fst, lookupStage acc k = none) →
      parseFrom st (deparse m) = .ok (acc ++ m) := by
  intro m
  induction m with
  | nil =>
      intro st acc hstat hflush _ _ _
      simp [deparse, parseFrom, parseLoop, hflush]
  | cons kv rest ih =>
      obtain ⟨k, sb⟩ := kv
      intro st acc hstat hflush hwf hnodup hfresh
      have hk : sb.stage = k := (hwf (k, sb) (by simp)).1
      have hlk : lookupStage acc sb.stage = none := by
        rw [hk]; exact hfresh k (by simp)
      have hcond : (st.status == Status.Init || st.status == Status.InputNext ||
          st.status == Status.MatchNext) = true := by
        rcases hstat with h | h | h <;> simp [h]
      have hstage : parseStep st (Command.mk (.STAGE sb.stage) 0) =
          .ok (PState.mk acc (some sb.stage) none none st.current_pattern
            .Stage) := by
        simp [parseStep, hcond, hflush]
      have hknotrest : k ∉ rest.map Prod.fst :=
        (List.nodup_cons.mp (by simpa using hnodup)).1
      have hfresh2 : ∀ k2 ∈ rest.map Prod.fst,
          lookupStage (acc ++ [(k, sb)]) k2 = none := by
        intro k2 hk2
        rw [lookupStage_append]
        rw [hfresh k2 (by simp [hk2])]
        have hne : (k == k2) = false := by
          simp only [beq_eq_false_iff_ne, ne_eq]
          intro hEq
          exact hknotrest (hEq ▸ hk2)
        simp [lookupStage, hne]
      have hreassoc : (acc ++ [(k, sb)]) ++ rest = acc ++ (k, sb) :: rest := by
        simp
      cases htr : sb.transition with
      | Input ib =>
          have hloop : parseLoop st (deparseStage sb) =
              .ok (PState.mk acc (some sb.stage) (some sb.speak)
                (some (.Input ib)) (some ib.input_var) .InputNext) := by
            simp only [deparseStage, htr, parseLoop, hstage]
            rfl
          have hflush2 : flushStage (PState.mk acc (some sb.stage) (some sb.speak)
              (some (.Input ib)) (some ib.input_var) .InputNext) =
              .ok (acc ++ [(k, sb)]) := by
            have hblock : StageBlock.mk sb.stage sb.speak (Transition.Input ib) = sb := by
              rw [← htr]
            unfold flushStage
            simp only
            rw [insertStage_fresh acc sb.stage _ hlk, hblock, hk]
          have hrest := ih (PState.mk acc (some sb.stage) (some sb.speak)
              (some (.Input ib)) (some ib.input_var) .InputNext)
            (acc ++ [(k, sb)]) (Or.inr (Or.inr rfl)) hflush2
            (fun kv hkv => hwf kv (by simp [hkv]))
            (List.nodup_cons.mp (by simpa using hnodup)).2 hfresh2
          show parseFrom st (deparseStage sb ++ deparse rest) = _
          rw [parseFrom_append _ _ _ _ hloop, hrest, hreassoc]
      | Match arms =>
          have hne : arms ≠ [] := by
            have := (hwf (k, sb) (by simp)).2
            rw [htr] at this
            simp [Transition.armsNonempty] at this
            simpa using this
          cases arms with
          | nil => exact absurd rfl hne
          | cons a arest =>
              obtain ⟨cp2, harms⟩ := parseLoop_deparseArms [] arest [a] acc
                (some sb.stage) (some sb.speak) (some a.pattern)
              rw [List.append_nil] at harms
              have hloop : parseLoop st (deparseStage sb) =
                  .ok (PState.mk acc (some sb.stage) (some sb.speak)
                    (some (.Match (a :: arest))) cp2 .MatchNext) := by
                have hpre : parseLoop st (deparseStage sb) =
                    parseLoop (PState.mk acc (some sb.stage) (some sb.speak)
                      (some (.Match [a])) (some a.pattern) .MatchNext)
                      (deparseArms arest) := by
                  simp only [deparseStage, htr, deparseArms, List.cons_append,
                    parseLoop, hstage]
                  rfl
                rw [hpre, harms]
                rfl
              have hflush2 : flushStage (PState.mk acc (some sb.stage)
                  (some sb.speak) (some (.Match (a :: arest))) cp2 .MatchNext) =
                  .ok (acc ++ [(k, sb)]) := by
                have hblock : StageBlock.mk sb.stage sb.speak
                    (Transition.Match (a :: arest)) = sb := by
                  rw [← htr]
                unfold flushStage
                simp only
                rw [insertStage_fresh acc sb.stage _ hlk, hblock, hk]
              have hrest := ih (PState.mk acc (some sb.stage) (some sb.speak)
                  (some (.Match (a :: arest))) cp2 .MatchNext)
                (acc ++ [(k, sb)]) (Or.inr (Or.inl rfl)) hflush2
                (fun kv hkv => hwf kv (by simp [hkv]))
                (List.nodup_cons.mp (by simpa using hnodup)).2 hfresh2
              show parseFrom st (deparseStage sb ++ deparse rest) = _
              rw [parseFrom_append _ _ _ _ hloop, hrest, hreassoc]

/-- C9: for every well-formed stage map (blocks keyed by their own stage
name, unique keys, Match transitions with at least one arm), de-parsing
it into the command sequence `STAGE`, `SPEAK`, then the `MATCH`/`INPUT` +
`NEXT` groups in arm order and re-parsing yields the same stage map. -/
theorem C9_roundtrip (m : Stages) (h : wellFormed m) :
    parse (deparse m) = .ok m := by
  have hmain := parseFrom_deparse m PState.init [] (Or.inl rfl) rfl h.1 h.2
    (fun k _ => rfl)
  simpa [parse, parseFrom] using hmain

/-- C9 witness: the §8 demo stage map (one Input stage and one single-arm
Match stage) round-trips through de-parse and parse. -/
theorem C9_roundtrip_witness :
    wellFormed demoStages ∧ parse (deparse demoStages) = .ok demoStages :=
  have hwf : wellFormed demoStages := by decide
  ⟨hwf, C9_roundtrip demoStages hwf⟩

end ServiceRobot
